import Mathlib

/-!
Verification of the multi-node synchronization layer of the
`rfid_access_control` repository, shallowly embedded from the SQL schema
(`rfid_schema_V1.sql`, `rfid_config_setup.sql`), its triggers, and the
Python `DatabaseSync.sync_table` script of the setup guide.
Timestamps are modelled as `Nat`; SQL `NULL`-able columns as `Option`.
-/

namespace RfidSync

/-- `users.user_type ENUM ('Common', 'VIP', 'Backstage')`. -/
inductive UserType
  | Common
  | VIP
  | Backstage
deriving DecidableEq, Repr

/-- `users.status ENUM ('IDLE', 'In', 'Out', 'Expired', 'Banned')`. -/
inductive UserStatus
  | IDLE
  | In
  | Out
  | Expired
  | Banned
deriving DecidableEq, Repr

/-- `ENUM ('PASS', 'FAIL')`. -/
inductive ScanResult
  | PASS
  | FAIL
deriving DecidableEq, Repr

/-- `logs.event_type ENUM ('ENTRY', 'EXIT', 'DENIED')`. -/
inductive EventType
  | ENTRY
  | EXIT
  | DENIED
deriving DecidableEq, Repr

/-- `sync_metadata.sync_status ENUM ('SUCCESS', 'FAILED', 'IN_PROGRESS')`. -/
inductive SyncStatus
  | SUCCESS
  | FAILED
  | IN_PROGRESS
deriving DecidableEq, Repr

/-- A row of the `users` table (`rfid_config_setup.sql`, `CREATE TABLE users`).
`version INT NOT NULL DEFAULT 1`; it is kept as `Option Nat` because the
trigger guards it with `COALESCE(OLD.version, 0)`. -/
structure UserRow where
  id : Nat
  rfid_tag : String
  name : Option String
  nic : Option String
  user_type : UserType
  status : UserStatus
  last_seen_at : Option Nat
  last_gate_id : Option Nat
  last_booth_id : Option Nat
  created_at : Nat
  updated_at : Nat
  node_id : Option Nat
  version : Option Nat
  last_sync_at : Nat
deriving DecidableEq, Repr

/-- A row of the `logs` table (`rfid_config_setup.sql`, `CREATE TABLE logs`). -/
structure LogRow where
  id : Nat
  user_id : Option Nat
  user_type : UserType
  event_type : EventType
  gate_id : Nat
  booth_id : Nat
  timestamp : Nat
  result : ScanResult
  message : Option String
  node_id : Nat
  synced : Bool
  sync_timestamp : Option Nat
deriving DecidableEq, Repr

/-- A row of the `sync_metadata` table. -/
structure SyncMetaRow where
  node_id : String
  table_name : String
  last_sync_timestamp : Nat
  sync_status : SyncStatus
  error_message : Option String
deriving DecidableEq, Repr

/-- Trigger `trg_users_before_update` (`rfid_config_setup.sql`):
`BEFORE UPDATE ON users FOR EACH ROW` sets
`NEW.version = COALESCE(OLD.version, 0) + 1`,
`NEW.last_sync_at = CURRENT_TIMESTAMP`, `NEW.updated_at = CURRENT_TIMESTAMP`,
overriding whatever the UPDATE statement supplied for those columns. -/
def trg_users_before_update (old new : UserRow) (now : Nat) : UserRow :=
  { new with
    version := some (old.version.getD 0 + 1)
    last_sync_at := now
    updated_at := now }

/-- Trigger `trg_logs_before_update_sync` (`rfid_config_setup.sql`):
`BEFORE UPDATE ON logs FOR EACH ROW`: if `NEW.sync_timestamp IS NOT NULL AND
(OLD.sync_timestamp IS NULL OR OLD.sync_timestamp <> NEW.sync_timestamp)`
then `SET NEW.synced = TRUE`. -/
def trg_logs_before_update_sync (old new : LogRow) : LogRow :=
  match new.sync_timestamp, old.sync_timestamp with
  | some _, none => { new with synced := true }
  | some nt, some ot => if ot ≠ nt then { new with synced := true } else new
  | none, _ => new

/-- Which node originated a mutation: a local write, or one applied while
replicating a remote peer's change.  The triggers fire on every `UPDATE`
statement executed against the table, whichever node the change came from. -/
inductive MutationOrigin
  | localNode
  | remotePeer
deriving DecidableEq, Repr

/-- One mutation applied to a `users` row: `UPDATE users SET ...` runs the
`BEFORE UPDATE` trigger on the old row and the proposed new row.  The
origin tag is irrelevant to the result: the trigger cannot distinguish a
local write from a replicated one. -/
def applyUserMutation (_origin : MutationOrigin) (old proposed : UserRow)
    (now : Nat) : UserRow :=
  trg_users_before_update old proposed now

/-- Run a sequence of `users`-row mutations, each carrying its origin, the
proposed row image, and the commit time. -/
def runMutations (r : UserRow) : List (MutationOrigin × UserRow × Nat) → UserRow
  | [] => r
  | m :: ms => runMutations (applyUserMutation m.1 r m.2.1 m.2.2) ms

/-- `INSERT INTO users (rfid_tag, name, nic, user_type, node_id)`:
all other columns take their schema defaults, in particular
`version INT NOT NULL DEFAULT 1`, `status DEFAULT 'IDLE'`, and
`created_at` / `updated_at` / `last_sync_at` `DEFAULT CURRENT_TIMESTAMP`. -/
def insertUserRow (id : Nat) (tag : String) (name nic : Option String)
    (ty : UserType) (node : Option Nat) (now : Nat) : UserRow :=
  { id := id
    rfid_tag := tag
    name := name
    nic := nic
    user_type := ty
    status := UserStatus.IDLE
    last_seen_at := none
    last_gate_id := none
    last_booth_id := none
    created_at := now
    updated_at := now
    node_id := node
    version := some 1
    last_sync_at := now }

lemma runMutations_version (ms : List (MutationOrigin × UserRow × Nat))
    (r : UserRow) (k : Nat) (h : r.version = some k) :
    (runMutations r ms).version = some (k + ms.length) := by
  induction ms generalizing r k with
  | nil => simpa [runMutations] using h
  | cons m ms ih =>
    have : (applyUserMutation m.1 r m.2.1 m.2.2).version = some (k + 1) := by
      simp [applyUserMutation, trg_users_before_update, h]
    rw [runMutations, ih _ _ this]
    simp [Nat.add_assoc, Nat.add_comm 1 ms.length]

/-- C3: every mutation of a `users` row — local or replicated — goes through the
`BEFORE UPDATE` trigger, so: (a) it bumps the version by exactly one,
hence strictly increases it; (b) it refreshes `last_sync_at` to the commit
time; (c) the result is independent of the mutation's origin; (d) starting
from a freshly inserted row (version 1, counting the insert as the first
mutation), after any sequence of further mutations the version equals the
total mutation count `1 + ms.length`, local and replicated alike. -/
theorem users_version_counts_all_mutations
    (o : MutationOrigin) (old p : UserRow) (now : Nat)
    (id : Nat) (tag : String) (name nic : Option String) (ty : UserType)
    (node : Option Nat) (t0 : Nat)
    (ms : List (MutationOrigin × UserRow × Nat)) :
    (applyUserMutation o old p now).version = some (old.version.getD 0 + 1) ∧
    old.version.getD 0 < (applyUserMutation o old p now).version.getD 0 ∧
    (applyUserMutation o old p now).last_sync_at = now ∧
    applyUserMutation MutationOrigin.localNode old p now =
      applyUserMutation MutationOrigin.remotePeer old p now ∧
    (runMutations (insertUserRow id tag name nic ty node t0) ms).version =
      some (1 + ms.length) := by
  refine ⟨rfl, ?_, rfl, rfl, ?_⟩
  · simp [applyUserMutation, trg_users_before_update]
  · exact runMutations_version ms _ 1 rfl

/-- C9: the result of `trg_users_before_update` stores
`version = COALESCE(OLD.version, 0) + 1` and overwrites `last_sync_at` and
`updated_at` with the commit time, regardless of what the `UPDATE` statement
supplied for those columns; consequently no update can set the version
directly to any value other than the forced one. -/
theorem trg_users_before_update_forces_version
    (old p q : UserRow) (now : Nat) (target : Option Nat) :
    (trg_users_before_update old p now).version = some (old.version.getD 0 + 1) ∧
    (trg_users_before_update old p now).last_sync_at = now ∧
    (trg_users_before_update old p now).updated_at = now ∧
    (trg_users_before_update old p now).version =
      (trg_users_before_update old q now).version ∧
    (target ≠ some (old.version.getD 0 + 1) →
      (trg_users_before_update old p now).version ≠ target) := by
  exact ⟨rfl, rfl, rfl, rfl, fun h hc => h hc.symm⟩

/-- Witness for `trg_users_before_update_forces_version` at concrete rows. -/
theorem trg_users_before_update_forces_version_witness :
    (trg_users_before_update
        (insertUserRow 1 "RFID001" none none UserType.Common none 0)
        (insertUserRow 1 "RFID001" none none UserType.Common none 0) 5).version
      ≠ some 7 :=
  (trg_users_before_update_forces_version
      (insertUserRow 1 "RFID001" none none UserType.Common none 0)
      (insertUserRow 1 "RFID001" none none UserType.Common none 0)
      (insertUserRow 1 "RFID001" none none UserType.Common none 0)
      5 (some 7)).2.2.2.2 (by decide)

/-- C10: behaviour of `trg_logs_before_update_sync`.  If the update supplies
a non-NULL `sync_timestamp` differing from the stored one (in particular
when the stored one is NULL), the stored row has `synced = TRUE` regardless
of the supplied `synced`; if `sync_timestamp` is unchanged or set to NULL,
`synced` is stored exactly as supplied. -/
theorem trg_logs_sync_flag (old new : LogRow) :
    ((∃ t, new.sync_timestamp = some t ∧ old.sync_timestamp ≠ some t) →
      (trg_logs_before_update_sync old new).synced = true) ∧
    ((new.sync_timestamp = none ∨ new.sync_timestamp = old.sync_timestamp) →
      (trg_logs_before_update_sync old new).synced = new.synced) := by
  constructor
  · rintro ⟨t, ht, hne⟩
    cases hos : old.sync_timestamp with
    | none => simp [trg_logs_before_update_sync, ht, hos]
    | some ot =>
      have : ot ≠ t := by
        intro h; exact hne (by rw [hos, h])
      simp [trg_logs_before_update_sync, ht, hos, this]
  · rintro (h | h)
    · simp [trg_logs_before_update_sync, h]
    · cases hns : new.sync_timestamp with
      | none => simp [trg_logs_before_update_sync, hns]
      | some t =>
        rw [hns] at h
        simp [trg_logs_before_update_sync, hns, ← h]

/-- A concrete `logs` row used by the witnesses. -/
def logRow0 : LogRow :=
  { id := 1
    user_id := some 1
    user_type := UserType.Common
    event_type := EventType.ENTRY
    gate_id := 1
    booth_id := 1
    timestamp := 10
    result := ScanResult.PASS
    message := none
    node_id := 1
    synced := false
    sync_timestamp := none }

/-- Witness for `trg_logs_sync_flag`: stamping a fresh `sync_timestamp` over
a NULL one forces `synced = TRUE` even though the update said `FALSE`, and an
update leaving `sync_timestamp` NULL keeps the supplied flag. -/
theorem trg_logs_sync_flag_witness :
    (trg_logs_before_update_sync logRow0
        { logRow0 with sync_timestamp := some 42 }).synced = true ∧
    (trg_logs_before_update_sync logRow0 logRow0).synced = logRow0.synced :=
  ⟨(trg_logs_sync_flag logRow0 { logRow0 with sync_timestamp := some 42 }).1
      ⟨42, rfl, by decide⟩,
   (trg_logs_sync_flag logRow0 logRow0).2 (Or.inl rfl)⟩

/-- The only `UPDATE` the system issues against `logs` is the sync stamp:
`UPDATE logs SET sync_timestamp = t, synced = s WHERE ...` — all other
columns are untouched by the statement, and the row then passes through
`trg_logs_before_update_sync`. -/
def stampLogSync (r : LogRow) (t : Option Nat) (s : Bool) : LogRow :=
  trg_logs_before_update_sync r { r with sync_timestamp := t, synced := s }

/-- Run a sequence of sync stamps against a `logs` row. -/
def runStamps (r : LogRow) : List (Option Nat × Bool) → LogRow
  | [] => r
  | p :: ps => runStamps (stampLogSync r p.1 p.2) ps

lemma stampLogSync_frame (r : LogRow) (t : Option Nat) (s : Bool) :
    (stampLogSync r t s).id = r.id ∧
    (stampLogSync r t s).user_id = r.user_id ∧
    (stampLogSync r t s).user_type = r.user_type ∧
    (stampLogSync r t s).event_type = r.event_type ∧
    (stampLogSync r t s).gate_id = r.gate_id ∧
    (stampLogSync r t s).booth_id = r.booth_id ∧
    (stampLogSync r t s).timestamp = r.timestamp ∧
    (stampLogSync r t s).result = r.result ∧
    (stampLogSync r t s).message = r.message ∧
    (stampLogSync r t s).node_id = r.node_id := by
  unfold stampLogSync trg_logs_before_update_sync
  cases t with
  | none => cases r.sync_timestamp <;> simp
  | some nt =>
    cases hos : r.sync_timestamp with
    | none => simp
    | some ot => by_cases h : ot ≠ nt <;> simp [h]

/-- C7: log rows are append-only.  After any sequence of sync-stamp updates
(the only updates the system performs on `logs`), every field of the row
except `synced` and `sync_timestamp` is exactly as it was inserted: user
reference, event kind, gate, booth, timestamp, result, message and owning
node are never changed. -/
theorem logs_append_only_frame (r : LogRow) (ps : List (Option Nat × Bool)) :
    (runStamps r ps).id = r.id ∧
    (runStamps r ps).user_id = r.user_id ∧
    (runStamps r ps).user_type = r.user_type ∧
    (runStamps r ps).event_type = r.event_type ∧
    (runStamps r ps).gate_id = r.gate_id ∧
    (runStamps r ps).booth_id = r.booth_id ∧
    (runStamps r ps).timestamp = r.timestamp ∧
    (runStamps r ps).result = r.result ∧
    (runStamps r ps).message = r.message ∧
    (runStamps r ps).node_id = r.node_id := by
  induction ps generalizing r with
  | nil => simp [runStamps]
  | cons p ps ih =>
    have hs := stampLogSync_frame r p.1 p.2
    have hr := ih (stampLogSync r p.1 p.2)
    rw [runStamps]
    exact ⟨hr.1.trans hs.1,
      hr.2.1.trans hs.2.1,
      hr.2.2.1.trans hs.2.2.1,
      hr.2.2.2.1.trans hs.2.2.2.1,
      hr.2.2.2.2.1.trans hs.2.2.2.2.1,
      hr.2.2.2.2.2.1.trans hs.2.2.2.2.2.1,
      hr.2.2.2.2.2.2.1.trans hs.2.2.2.2.2.2.1,
      hr.2.2.2.2.2.2.2.1.trans hs.2.2.2.2.2.2.2.1,
      hr.2.2.2.2.2.2.2.2.1.trans hs.2.2.2.2.2.2.2.2.1,
      hr.2.2.2.2.2.2.2.2.2.trans hs.2.2.2.2.2.2.2.2.2⟩

/-- MariaDB auto-increment under the configuration of the setup guide
(`auto-increment-increment = N`, `auto-increment-offset = i`, with `N` the
node count and `i` the node's 1-indexed ordinal): the next generated key is
the smallest value of the arithmetic progression `i, i + N, i + 2N, …`
strictly greater than the current counter `c`. -/
def nextAutoIncrement (N i c : Nat) : Nat :=
  if c < i then i else i + N * ((c - i) / N + 1)

/-- The keys a node generates locally: `n` successive auto-increment values
starting above counter `c`, each insert advancing the counter to the key
just produced. -/
def genKeys (N i c : Nat) : Nat → List Nat
  | 0 => []
  | n + 1 => nextAutoIncrement N i c :: genKeys N i (nextAutoIncrement N i c) n

lemma nextAutoIncrement_mod (N i c : Nat) :
    nextAutoIncrement N i c % N = i % N := by
  unfold nextAutoIncrement
  by_cases h : c < i
  · simp [h]
  · simp [h, Nat.add_mul_mod_self_left]

lemma genKeys_mod (N i c n : Nat) (k : Nat) (hk : k ∈ genKeys N i c n) :
    k % N = i % N := by
  induction n generalizing c with
  | zero => simp [genKeys] at hk
  | succ n ih =>
    rw [genKeys, List.mem_cons] at hk
    rcases hk with h | h
    · rw [h]; exact nextAutoIncrement_mod N i c
    · exact ih _ h

lemma ordinal_mod_ne {N i j : Nat} (hi1 : 1 ≤ i) (hiN : i ≤ N)
    (hj1 : 1 ≤ j) (hjN : j ≤ N) (hij : i ≠ j) : i % N ≠ j % N := by
  rcases Nat.lt_or_ge i N with hi | hi
  · rcases Nat.lt_or_ge j N with hj | hj
    · rw [Nat.mod_eq_of_lt hi, Nat.mod_eq_of_lt hj]; exact hij
    · have hjN' : j = N := Nat.le_antisymm hjN hj
      rw [Nat.mod_eq_of_lt hi, hjN', Nat.mod_self]
      omega
  · have hiN' : i = N := Nat.le_antisymm hiN hi
    have hjlt : j < N := by omega
    rw [hiN', Nat.mod_self, Nat.mod_eq_of_lt hjlt]
    omega

/-- C2: under `auto-increment-increment = N`, `auto-increment-offset = i`,
every key node `i` generates locally is congruent to `i` modulo `N`; and for
two distinct ordinals `i ≠ j` in `1..N`, the key sets of the two nodes are
disjoint whatever counters they generate from — e.g. with `N = 2`, node 1
produces only odd ids and node 2 only even ids. -/
theorem partitioner_keys_disjoint (N i j c c' n m : Nat)
    (hi1 : 1 ≤ i) (hiN : i ≤ N) (hj1 : 1 ≤ j) (hjN : j ≤ N) (hij : i ≠ j) :
    (∀ k ∈ genKeys N i c n, k % N = i % N) ∧
    (∀ k ∈ genKeys N i c n, k ∉ genKeys N j c' m) := by
  refine ⟨fun k hk => genKeys_mod N i c n k hk, fun k hk hk' => ?_⟩
  have h1 : k % N = i % N := genKeys_mod N i c n k hk
  have h2 : k % N = j % N := genKeys_mod N j c' m k hk'
  exact ordinal_mod_ne hi1 hiN hj1 hjN hij (h1 ▸ h2)

/-- Witness for `partitioner_keys_disjoint`: with two nodes, node 1 generates
1, 3, 5 (odd) and node 2 generates 2, 4, 6 (even); the sets are disjoint. -/
theorem partitioner_keys_disjoint_witness :
    genKeys 2 1 0 3 = [1, 3, 5] ∧ genKeys 2 2 0 3 = [2, 4, 6] ∧
    (∀ k ∈ genKeys 2 1 0 3, k % 2 = 1 % 2) ∧
    (∀ k ∈ genKeys 2 1 0 3, k ∉ genKeys 2 2 0 3) :=
  ⟨by decide, by decide,
   (partitioner_keys_disjoint 2 1 2 0 0 3 3 (by decide) (by decide)
      (by decide) (by decide) (by decide)).1,
   (partitioner_keys_disjoint 2 1 2 0 0 3 3 (by decide) (by decide)
      (by decide) (by decide) (by decide)).2⟩

/-- Modelled from the spec: the Conflict Resolver is absent from the source —
`rfid_config_setup.sql` declares the `replication_conflicts` table but no
resolution logic exists anywhere in the repository.  Per the spec (§4.4), a
conflicting write carries the written value, its write timestamp, and the
ordinal of the node that produced it. -/
structure ConflictingWrite where
  value : UserRow
  writeTimestamp : Nat
  nodeOrdinal : Nat
deriving DecidableEq, Repr

/-- Modelled from the spec: "last-writer-wins by timestamp, with ties broken
by node ordinal (lower ordinal wins)".  Given the two conflicting writes, the
later timestamp wins; on a timestamp tie, the write from the lower-ordinal
node wins. -/
def resolveConflict (a b : ConflictingWrite) : ConflictingWrite :=
  if b.writeTimestamp < a.writeTimestamp then a
  else if a.writeTimestamp < b.writeTimestamp then b
  else if a.nodeOrdinal ≤ b.nodeOrdinal then a else b

/-- C1: the resolution rule is last-writer-wins on timestamp with ties broken
by the lower node ordinal, and it is symmetric in its two arguments whenever
the writes come from distinct nodes — so the two nodes, each feeding the same
pair of conflicting writes (in either order) to the resolver, select the
identical winning value. -/
theorem lww_resolution_deterministic (a b : ConflictingWrite)
    (h : a.nodeOrdinal ≠ b.nodeOrdinal) :
    resolveConflict a b = resolveConflict b a ∧
    (b.writeTimestamp < a.writeTimestamp → resolveConflict a b = a) ∧
    (a.writeTimestamp < b.writeTimestamp → resolveConflict a b = b) ∧
    (a.writeTimestamp = b.writeTimestamp →
      (resolveConflict a b).nodeOrdinal = min a.nodeOrdinal b.nodeOrdinal) := by
  refine ⟨?_, ?_, ?_, ?_⟩
  · unfold resolveConflict
    rcases Nat.lt_trichotomy a.writeTimestamp b.writeTimestamp with ht | ht | ht
    · simp [ht, Nat.lt_asymm ht]
    · rcases Nat.lt_or_ge a.nodeOrdinal b.nodeOrdinal with ho | ho
      · simp [ht, Nat.le_of_lt ho, Nat.not_le.mpr ho, Nat.lt_irrefl]
      · have ho' : b.nodeOrdinal < a.nodeOrdinal :=
          Nat.lt_of_le_of_ne ho (fun e => h e.symm)
        simp [ht, Nat.not_le.mpr ho', Nat.le_of_lt ho', Nat.lt_irrefl]
    · simp [ht, Nat.lt_asymm ht]
  · intro ht; simp [resolveConflict, ht]
  · intro ht; simp [resolveConflict, ht, Nat.lt_asymm ht]
  · intro ht
    rcases Nat.lt_or_ge a.nodeOrdinal b.nodeOrdinal with ho | ho
    · simp [resolveConflict, ht, Nat.le_of_lt ho, Nat.lt_irrefl,
        Nat.min_eq_left (Nat.le_of_lt ho)]
    · have ho' : b.nodeOrdinal < a.nodeOrdinal :=
        Nat.lt_of_le_of_ne ho (fun e => h e.symm)
      simp [resolveConflict, ht, Nat.not_le.mpr ho', Nat.lt_irrefl,
        Nat.min_eq_right (Nat.le_of_lt ho')]

/-- Two concrete conflicting writes to the same user record at the same
timestamp, from nodes 1 and 2. -/
def writeA : ConflictingWrite :=
  { value := { insertUserRow 1 "RFID001" none none UserType.Common (some 1) 0
                with status := UserStatus.In }
    writeTimestamp := 30
    nodeOrdinal := 1 }

/-- The competing write, from node 2. -/
def writeB : ConflictingWrite :=
  { value := { insertUserRow 1 "RFID001" none none UserType.Common (some 2) 0
                with status := UserStatus.Out }
    writeTimestamp := 30
    nodeOrdinal := 2 }

/-- Witness for `lww_resolution_deterministic`: the timestamp-tied writes of
nodes 1 and 2 resolve to the same winner in either argument order, and the
winner is the lower-ordinal node's write. -/
theorem lww_resolution_deterministic_witness :
    resolveConflict writeA writeB = resolveConflict writeB writeA ∧
    (resolveConflict writeA writeB).nodeOrdinal =
      min writeA.nodeOrdinal writeB.nodeOrdinal :=
  ⟨(lww_resolution_deterministic writeA writeB (by decide)).1,
   (lww_resolution_deterministic writeA writeB (by decide)).2.2.2 (by decide)⟩

/-- `sync_queue.operation ENUM ('INSERT', 'UPDATE', 'DELETE')`. -/
inductive QueueOp
  | INSERT
  | UPDATE
  | DELETE
deriving DecidableEq, Repr

/-- The `JSON_OBJECT('id', NEW.id, 'name', NEW.name, 'rfid_tag', NEW.rfid_tag,
'status', NEW.status)` snapshot recorded by `users_sync_trigger`. -/
structure UserSnapshot where
  id : Nat
  name : Option String
  rfid_tag : String
  status : UserStatus
deriving DecidableEq, Repr

/-- The four-column JSON snapshot of a `users` row. -/
def userSnapshot (r : UserRow) : UserSnapshot :=
  { id := r.id, name := r.name, rfid_tag := r.rfid_tag, status := r.status }

/-- A row of the `sync_queue` table of the setup guide. -/
structure SyncQueueEntry where
  table_name : String
  record_id : Nat
  operation : QueueOp
  data : UserSnapshot
  created_at : Nat
  synced : Bool
deriving DecidableEq, Repr

/-- The `sync_queue` row appended by `users_sync_trigger`
(`AFTER UPDATE ON users FOR EACH ROW`). -/
def users_sync_trigger_entry (new : UserRow) (now : Nat) : SyncQueueEntry :=
  { table_name := "users"
    record_id := new.id
    operation := QueueOp.UPDATE
    data := userSnapshot new
    created_at := now
    synced := false }

/-- The `users` table together with the `sync_queue` table of one node. -/
structure DbState where
  users : List UserRow
  sync_queue : List SyncQueueEntry
deriving DecidableEq, Repr

/-- `INSERT INTO users`: the source defines no `INSERT` trigger on `users`,
so nothing is appended to `sync_queue`. -/
def insertUserOp (st : DbState) (r : UserRow) : DbState :=
  { st with users := st.users ++ [r] }

/-- `UPDATE users ... WHERE id = uid`: each affected row passes through
`trg_users_before_update`, and `users_sync_trigger` (`AFTER UPDATE`) appends
one `sync_queue` entry per affected row, in the same transaction. -/
def updateUserOp (st : DbState) (uid : Nat) (p : UserRow) (now : Nat) :
    DbState :=
  { users := st.users.map fun r =>
      if r.id = uid then trg_users_before_update r p now else r
    sync_queue := st.sync_queue ++
      (st.users.filter fun r => decide (r.id = uid)).map fun r =>
        users_sync_trigger_entry (trg_users_before_update r p now) now }

/-- `DELETE FROM users WHERE id = uid`: the source defines no `DELETE`
trigger on `users`, so nothing is appended to `sync_queue`. -/
def deleteUserOp (st : DbState) (uid : Nat) : DbState :=
  { st with users := st.users.filter fun r => decide (¬ r.id = uid) }

/-- Empty node state. -/
def dbEmpty : DbState := { users := [], sync_queue := [] }

/-- A concrete `users` row used by counterexamples and witnesses. -/
def testUser : UserRow :=
  insertUserRow 1 "RFID001" (some "John Doe") (some "123456789V")
    UserType.Common (some 1) 0

/-- C5 counterexample: the claim says every insert appends exactly one
change-queue entry in the same unit of work, but the source only installs
`users_sync_trigger AFTER UPDATE`; inserting a user appends no entry. -/
theorem change_recorder_insert_counterexample :
    ¬ ((insertUserOp dbEmpty testUser).sync_queue.length =
        dbEmpty.sync_queue.length + 1) := by
  decide

/-- C5 amended: only updates are recorded.  When exactly one `users` row
matches, the update appends exactly one `sync_queue` entry, in the same
operation as the row mutation, holding table name `users`, the new row's id,
operation `UPDATE`, and the four-column snapshot (id, name, rfid_tag,
status) of the post-trigger row; inserts and deletes append nothing. -/
theorem change_recorder_update_only (st : DbState) (uid : Nat)
    (p r0 : UserRow) (now : Nat)
    (h : (st.users.filter fun r => decide (r.id = uid)) = [r0]) :
    (updateUserOp st uid p now).sync_queue =
      st.sync_queue ++
        [users_sync_trigger_entry (trg_users_before_update r0 p now) now] ∧
    (∀ u, (insertUserOp st u).sync_queue = st.sync_queue) ∧
    (deleteUserOp st uid).sync_queue = st.sync_queue := by
  refine ⟨?_, fun _ => rfl, rfl⟩
  simp [updateUserOp, h]

/-- Witness for `change_recorder_update_only` at a one-user state. -/
theorem change_recorder_update_only_witness :
    (updateUserOp (insertUserOp dbEmpty testUser) 1
        { testUser with status := UserStatus.In } 9).sync_queue =
      [users_sync_trigger_entry
        (trg_users_before_update testUser
          { testUser with status := UserStatus.In } 9) 9] :=
  ((change_recorder_update_only (insertUserOp dbEmpty testUser) 1
      { testUser with status := UserStatus.In } testUser 9 (by decide)).1).trans
    (by decide)

/-- Modelled from the spec: no code in the repository applies a change-queue
entry on a receiving node (the guide ships rows with an unspecified
`send_to_node`), so per §4.3 an already-applied entry is detected "via
matching version/timestamp rather than re-executing the mutation".  A
shipped change carries the record id and the full row image, including the
version and last-sync timestamp it had on the originating node. -/
structure ShippedChange where
  record_id : Nat
  snapshot : UserRow
deriving DecidableEq, Repr

/-- Modelled from the spec: applying a shipped change to one `users` row —
if the stored version and last-sync timestamp already match the change's,
the entry was already applied and the row is left untouched; otherwise the
snapshot (with its version and timestamp) is installed. -/
def applyChangeRow (e : ShippedChange) (r : UserRow) : UserRow :=
  if r.id = e.record_id then
    if r.version = e.snapshot.version ∧ r.last_sync_at = e.snapshot.last_sync_at
    then r
    else e.snapshot
  else r

/-- Modelled from the spec: applying a shipped change to a node's `users`
table. -/
def applyChange (users : List UserRow) (e : ShippedChange) : List UserRow :=
  users.map (applyChangeRow e)

lemma applyChangeRow_idem (e : ShippedChange) (r : UserRow) :
    applyChangeRow e (applyChangeRow e r) = applyChangeRow e r := by
  unfold applyChangeRow
  by_cases h1 : r.id = e.record_id
  · by_cases h2 : r.version = e.snapshot.version ∧
        r.last_sync_at = e.snapshot.last_sync_at
    · simp [h1, h2]
    · by_cases h3 : e.snapshot.id = e.record_id
      · simp [h1, h2, h3]
      · simp [h1, h2, h3]
  · simp [h1]

/-- C4: applying the same change-queue entry twice to the same node state
gives exactly the state after applying it once — every row, version number
and timestamp included — because re-application is detected by the matching
version/timestamp and skipped, not re-executed. -/
theorem apply_change_idempotent (users : List UserRow) (e : ShippedChange) :
    applyChange (applyChange users e) e = applyChange users e := by
  unfold applyChange
  rw [List.map_map]
  exact List.map_congr_left fun r _ => applyChangeRow_idem e r

/-- The `sync_metadata` rows whose `table_name` matches — the rows consulted
by `sync_table`'s scalar subquery
`(SELECT last_sync_timestamp FROM sync_metadata WHERE table_name = %s)`. -/
def metaRowsForTable (meta : List SyncMetaRow) (t : String) :
    List SyncMetaRow :=
  meta.filter fun m => decide (m.table_name = t)

/-- The row selection done by `DatabaseSync.sync_table`:
`SELECT * FROM {table} WHERE last_sync_at > (SELECT last_sync_timestamp FROM
sync_metadata WHERE table_name = %s)`.  The subquery is keyed by
`table_name` alone.  If no metadata row matches, the scalar subquery yields
NULL and the comparison selects nothing; if more than one row matches (as the
schema's one-row-per-`(node_id, table_name)` layout provides for once a
second node is registered), the scalar subquery raises ERROR 1242 and the
cycle aborts (`none`). -/
def sync_table_select (users : List UserRow) (meta : List SyncMetaRow)
    (t : String) : Option (List UserRow) :=
  match metaRowsForTable meta t with
  | [] => some []
  | [m] => some (users.filter fun r => decide (m.last_sync_timestamp < r.last_sync_at))
  | _ => none

/-- The position update done by `DatabaseSync.sync_table`:
`UPDATE sync_metadata SET last_sync_timestamp = NOW() WHERE table_name = %s`
— it stamps every metadata row of the table, whatever its `node_id`. -/
def sync_table_update_meta (meta : List SyncMetaRow) (t : String)
    (now : Nat) : List SyncMetaRow :=
  meta.map fun m =>
    if m.table_name = t then { m with last_sync_timestamp := now } else m

/-- `DatabaseSync.sync_table`: select the rows newer than the per-table
position, send the same list to every remote node, then stamp the per-table
position.  `none` models the aborted cycle (SQL error). -/
def sync_table (users : List UserRow) (meta : List SyncMetaRow)
    (remote_nodes : List String) (t : String) (now : Nat) :
    Option (List (String × List UserRow) × List SyncMetaRow) :=
  match sync_table_select users meta t with
  | none => none
  | some data =>
      some (remote_nodes.map fun n => (n, data),
            sync_table_update_meta meta t now)

/-- Following the spec's words (refinement target for C6): the pull step for
a peer selects the changes newer than the last recorded sync position for
that specific `(peer, table)` pair. -/
def select_for_peer_per_spec (users : List UserRow) (meta : List SyncMetaRow)
    (peer t : String) : List UserRow :=
  match meta.filter fun m => decide (m.node_id = peer ∧ m.table_name = t) with
  | [m] => users.filter fun r => decide (m.last_sync_timestamp < r.last_sync_at)
  | _ => []

/-- Metadata row of peer `nodeA` for table `users`, position 10. -/
def metaRowA : SyncMetaRow :=
  { node_id := "nodeA", table_name := "users", last_sync_timestamp := 10
    sync_status := SyncStatus.SUCCESS, error_message := none }

/-- Metadata row of peer `nodeB` for table `users`, position 20. -/
def metaRowB : SyncMetaRow :=
  { node_id := "nodeB", table_name := "users", last_sync_timestamp := 20
    sync_status := SyncStatus.SUCCESS, error_message := none }

/-- A two-peer `sync_metadata` table, one row per `(node, table)` pair as
the schema's `UNIQUE KEY unique_node_table` lays out. -/
def metaTwoPeers : List SyncMetaRow := [metaRowA, metaRowB]

/-- One local user row, last synchronized at time 15. -/
def usersAt15 : List UserRow :=
  [{ testUser with last_sync_at := 15 }]

/-- C6 counterexample: with metadata rows for two peers, the selection the
code makes for table `users` is not the per-`(peer, table)` selection the
claim describes for peer `nodeA` (the code is keyed by table alone — here
its table-keyed scalar subquery even aborts on the two matching rows, while
the spec's per-peer selection returns the row newer than `nodeA`'s
position). -/
theorem sync_selection_not_per_peer_counterexample :
    sync_table_select usersAt15 metaTwoPeers "users" ≠
      some (select_for_peer_per_spec usersAt15 metaTwoPeers "nodeA" "users") := by
  decide

/-- C6 amended: `sync_table`'s selection and position update are keyed by
the table alone.  When exactly one metadata row exists for the table, the
cycle selects the rows newer than that single per-table position, sends the
identical list to every peer, and stamps the new position into every
metadata row of that table irrespective of which node it belongs to,
leaving rows of other tables untouched. -/
theorem sync_keyed_by_table_alone (users : List UserRow)
    (meta : List SyncMetaRow) (nodes : List String) (t : String) (now : Nat)
    (m0 : SyncMetaRow) (sends : List (String × List UserRow))
    (meta' : List SyncMetaRow)
    (h : metaRowsForTable meta t = [m0])
    (hrun : sync_table users meta nodes t now = some (sends, meta')) :
    (∀ p ∈ sends,
      p.2 = users.filter fun r => decide (m0.last_sync_timestamp < r.last_sync_at)) ∧
    (∀ m ∈ meta', m.table_name = t → m.last_sync_timestamp = now) ∧
    (∀ m ∈ meta, m.table_name ≠ t → m ∈ meta') := by
  have hsel : sync_table_select users meta t =
      some (users.filter fun r => decide (m0.last_sync_timestamp < r.last_sync_at)) := by
    unfold sync_table_select
    rw [h]
  unfold sync_table at hrun
  rw [hsel] at hrun
  have hsends : sends = nodes.map fun n =>
      (n, users.filter fun r => decide (m0.last_sync_timestamp < r.last_sync_at)) :=
    (congrArg Prod.fst (Option.some.inj hrun)).symm
  have hmeta : meta' = sync_table_update_meta meta t now :=
    (congrArg Prod.snd (Option.some.inj hrun)).symm
  refine ⟨?_, ?_, ?_⟩
  · intro p hp
    rw [hsends] at hp
    obtain ⟨n, _, hn⟩ := List.mem_map.mp hp
    rw [← hn]
  · intro m hm hmt
    rw [hmeta] at hm
    obtain ⟨m1, _, hm1⟩ := List.mem_map.mp hm
    by_cases h1 : m1.table_name = t
    · rw [← hm1]; simp [h1]
    · rw [if_neg h1] at hm1
      rw [← hm1] at hmt
      exact absurd hmt h1
  · intro m hm hmt
    rw [hmeta]
    unfold sync_table_update_meta
    have : (if m.table_name = t then { m with last_sync_timestamp := now } else m) = m := by
      rw [if_neg hmt]
    exact this ▸ List.mem_map_of_mem _ hm

/-- A one-peer `sync_metadata` table. -/
def metaOnePeer : List SyncMetaRow := [metaRowA]

/-- Witness for `sync_keyed_by_table_alone` at a one-peer state. -/
theorem sync_keyed_by_table_alone_witness :
    (∀ p ∈ [("nodeB", usersAt15)], p.2 =
      usersAt15.filter fun r => decide (metaRowA.last_sync_timestamp < r.last_sync_at)) ∧
    (∀ m ∈ [{ metaRowA with last_sync_timestamp := 50 }],
      m.table_name = "users" → m.last_sync_timestamp = 50) ∧
    (∀ m ∈ metaOnePeer, m.table_name ≠ "users" →
      m ∈ [{ metaRowA with last_sync_timestamp := 50 }]) :=
  sync_keyed_by_table_alone usersAt15 metaOnePeer ["nodeB"] "users" 50
    metaRowA [("nodeB", usersAt15)] [{ metaRowA with last_sync_timestamp := 50 }]
    (by decide) (by decide)

/-- One full run of `DatabaseSync.sync_table` including the transport loop:
`send_to_node` is modelled by a per-peer success predicate.  The metadata
`UPDATE` and the `commit()` run only after every send returned; an exception
raised by any send aborts the cycle before the `UPDATE`, so `sync_metadata`
is left exactly as it was.  The function has no error handler: no `FAILED`
status and no `error_message` is ever written. -/
def sync_table_cycle (users : List UserRow) (meta : List SyncMetaRow)
    (remote_nodes : List String) (t : String) (now : Nat)
    (sendOk : String → Bool) : List SyncMetaRow :=
  match sync_table_select users meta t with
  | none => meta
  | some _ =>
      if remote_nodes.all sendOk then sync_table_update_meta meta t now
      else meta

/-- A transport in which every peer is unreachable. -/
def sendAlwaysFails : String → Bool := fun _ => false

/-- C8 counterexample: a cycle for `(nodeA, users)` whose peer is
unreachable leaves `sync_metadata` exactly as before — the row keeps status
`SUCCESS` and a NULL `error_message`; nothing is updated to `FAILED` and no
error detail is recorded, because `sync_table` has no error handler. -/
theorem sync_error_not_recorded_counterexample :
    sync_table_cycle usersAt15 metaOnePeer ["nodeB"] "users" 50
        sendAlwaysFails = metaOnePeer ∧
    (sync_table_cycle usersAt15 metaOnePeer ["nodeB"] "users" 50
        sendAlwaysFails).filter
      (fun m => decide (m.sync_status = SyncStatus.FAILED)) = [] ∧
    (sync_table_cycle usersAt15 metaOnePeer ["nodeB"] "users" 50
        sendAlwaysFails).filter
      (fun m => decide (m.error_message ≠ none)) = [] := by
  refine ⟨by decide, by decide, by decide⟩

/-- C8 amended: on a transport error the cycle aborts before the metadata
update, leaving `sync_metadata` unchanged — in particular the status is not
set to `FAILED` and no error message is recorded — and the unsynced rows
remain selectable for retry: the next cycle's selection is identical.  On
success, only `last_sync_timestamp` changes: every resulting metadata row
keeps the status and error message (and key) of a row of the previous
state. -/
theorem sync_failure_leaves_retry_state (users : List UserRow)
    (meta : List SyncMetaRow) (nodes : List String) (t : String) (now : Nat)
    (sendOk : String → Bool) :
    (nodes.all sendOk = false →
      sync_table_cycle users meta nodes t now sendOk = meta ∧
      sync_table_select users
        (sync_table_cycle users meta nodes t now sendOk) t =
        sync_table_select users meta t) ∧
    (∀ m' ∈ sync_table_cycle users meta nodes t now sendOk, ∃ m ∈ meta,
      m'.sync_status = m.sync_status ∧ m'.error_message = m.error_message ∧
      m'.node_id = m.node_id ∧ m'.table_name = m.table_name) := by
  constructor
  · intro hfail
    have : sync_table_cycle users meta nodes t now sendOk = meta := by
      unfold sync_table_cycle
      cases sync_table_select users meta t with
      | none => rfl
      | some d => rw [hfail]; rfl
    exact ⟨this, by rw [this]⟩
  · intro m' hm'
    unfold sync_table_cycle at hm'
    have hmem : ∀ (h2 : m' ∈ sync_table_update_meta meta t now), ∃ m ∈ meta,
        m'.sync_status = m.sync_status ∧ m'.error_message = m.error_message ∧
        m'.node_id = m.node_id ∧ m'.table_name = m.table_name := by
      intro h2
      obtain ⟨m, hm, hmap⟩ := List.mem_map.mp h2
      refine ⟨m, hm, ?_⟩
      by_cases ht : m.table_name = t
      · rw [← hmap, if_pos ht]
        exact ⟨rfl, rfl, rfl, rfl⟩
      · rw [← hmap, if_neg ht]
        exact ⟨rfl, rfl, rfl, rfl⟩
    cases hsel : sync_table_select users meta t with
    | none =>
        rw [hsel] at hm'
        exact ⟨m', hm', rfl, rfl, rfl, rfl⟩
    | some d =>
        rw [hsel] at hm'
        by_cases hall : nodes.all sendOk
        · rw [if_pos hall] at hm'
          exact hmem hm'
        · rw [if_neg hall] at hm'
          exact ⟨m', hm', rfl, rfl, rfl, rfl⟩

/-- Witness for `sync_failure_leaves_retry_state`: the unreachable-peer cycle
leaves the one-peer metadata unchanged, with the same selection next cycle,
and the surviving row keeps its status and error message. -/
theorem sync_failure_leaves_retry_state_witness :
    (sync_table_cycle usersAt15 metaOnePeer ["nodeB"] "users" 50
        sendAlwaysFails = metaOnePeer ∧
      sync_table_select usersAt15
        (sync_table_cycle usersAt15 metaOnePeer ["nodeB"] "users" 50
          sendAlwaysFails) "users" =
        sync_table_select usersAt15 metaOnePeer "users") ∧
    (∃ m ∈ metaOnePeer, metaRowA.sync_status = m.sync_status ∧
      metaRowA.error_message = m.error_message ∧
      metaRowA.node_id = m.node_id ∧ metaRowA.table_name = m.table_name) :=
  ⟨(sync_failure_leaves_retry_state usersAt15 metaOnePeer ["nodeB"] "users"
      50 sendAlwaysFails).1 (by decide),
   (sync_failure_leaves_retry_state usersAt15 metaOnePeer ["nodeB"] "users"
      50 sendAlwaysFails).2 metaRowA (by decide)⟩

end RfidSync
